import Mathlib

/-!
Verification of the sitemapper harvesting pipeline against its source.

Shallow embedding of `src/sitemapper`: circuit breaker (`circuit_breaker.py`),
health-check retry and paginated extraction (`orchestrator.py`), sitemap file
assembly (`sitemap_generator.py`), URL building (`url_builder.py`) and result
aggregation (`orchestrator.py`).  Wall-clock times are modelled as rationals;
fields that only carry timing telemetry (`processing_time`, `total_time`) are
kept but not computed from a clock.
-/

namespace Sitemapper

/-! ## Circuit breaker (`circuit_breaker.py`) -/

/-- States of `CircuitState`; `opened` models `OPEN` (a Lean keyword). -/
inductive CBState where
  | closed
  | opened
  | halfOpen
deriving DecidableEq, Repr

/-- `CircuitBreakerConfig` (timeout field not needed: a per-call timeout is
modelled as a failure outcome, as `call` converts it to one). -/
structure CBConfig where
  failure_threshold : Nat := 5
  recovery_timeout : ℚ := 60
  success_threshold : Nat := 3
deriving DecidableEq, Repr

/-- Mutable fields of `CircuitBreaker`. -/
structure CBreaker where
  state : CBState
  failure_count : Nat
  success_count : Nat
  last_failure_time : Option ℚ
deriving DecidableEq, Repr

/-- A freshly constructed (or `reset()`) breaker. -/
def initBreaker : CBreaker :=
  { state := CBState.closed, failure_count := 0, success_count := 0,
    last_failure_time := none }

/-- `CircuitBreaker._should_attempt_reset`. -/
def shouldAttemptReset (cfg : CBConfig) (now : ℚ) (cb : CBreaker) : Bool :=
  match cb.last_failure_time with
  | none => true
  | some t => decide (cfg.recovery_timeout ≤ now - t)

/-- `CircuitBreaker._transition_to_half_open`. -/
def transitionToHalfOpen (cb : CBreaker) : CBreaker :=
  { cb with state := CBState.halfOpen, success_count := 0 }

/-- `CircuitBreaker._transition_to_open`. -/
def transitionToOpen (cb : CBreaker) : CBreaker :=
  { cb with state := CBState.opened, success_count := 0 }

/-- `CircuitBreaker._transition_to_closed`. -/
def transitionToClosed (cb : CBreaker) : CBreaker :=
  { cb with state := CBState.closed, failure_count := 0, success_count := 0 }

/-- `CircuitBreaker._on_success`. -/
def onSuccess (cfg : CBConfig) (cb : CBreaker) : CBreaker :=
  if cb.state = CBState.halfOpen then
    let cb2 := { cb with success_count := cb.success_count + 1 }
    if cfg.success_threshold ≤ cb2.success_count then transitionToClosed cb2 else cb2
  else if cb.state = CBState.closed then
    { cb with failure_count := 0 }
  else cb

/-- `CircuitBreaker._on_failure` at wall-clock time `now`. -/
def onFailure (cfg : CBConfig) (now : ℚ) (cb : CBreaker) : CBreaker :=
  let cb2 := { cb with failure_count := cb.failure_count + 1,
                       last_failure_time := some now }
  if cb2.state = CBState.halfOpen then transitionToOpen cb2
  else if cb2.state = CBState.closed then
    if cfg.failure_threshold ≤ cb2.failure_count then transitionToOpen cb2 else cb2
  else cb2

/-- Outcome of executing the wrapped operation: a per-call timeout is recorded
through `_on_failure` exactly like any other exception, so both collapse to
`failure`. -/
inductive CallOutcome where
  | success
  | failure
deriving DecidableEq, Repr

/-- What `CircuitBreaker.call` does from the caller's point of view:
returns the operation's result, re-raises its failure, or raises the
fail-fast `SolrConnectionError` without running the operation. -/
inductive CallResult where
  | ok
  | err
  | fastFail
deriving DecidableEq, Repr

/-- `CircuitBreaker.call` as a state transition: the OPEN pre-check
(`_should_attempt_reset` / `_transition_to_half_open` / `_fail_fast`),
then execution of the operation with the given outcome. -/
def cbCall (cfg : CBConfig) (now : ℚ) (oc : CallOutcome) (cb : CBreaker) :
    CallResult × CBreaker :=
  if cb.state = CBState.opened then
    if shouldAttemptReset cfg now cb then
      let cb2 := transitionToHalfOpen cb
      match oc with
      | CallOutcome.success => (CallResult.ok, onSuccess cfg cb2)
      | CallOutcome.failure => (CallResult.err, onFailure cfg now cb2)
    else (CallResult.fastFail, cb)
  else
    match oc with
    | CallOutcome.success => (CallResult.ok, onSuccess cfg cb)
    | CallOutcome.failure => (CallResult.err, onFailure cfg now cb)

/-- Folding a sequence of timed call outcomes through the breaker. -/
def runBreaker (cfg : CBConfig) (cb : CBreaker) (tr : List (ℚ × CallOutcome)) :
    CBreaker :=
  tr.foldl (fun s e => (cbCall cfg e.1 e.2 s).2) cb

/-- Number of recorded failures since the last success in an outcome trace
(the length of the maximal all-failure suffix). -/
def failStreak (tr : List (ℚ × CallOutcome)) : Nat :=
  tr.foldl (fun n e => match e.2 with
    | CallOutcome.failure => n + 1
    | CallOutcome.success => 0) 0

/-- Concrete breaker configuration from `ProcessingOrchestrator.__init__`:
threshold 3, recovery 30 s, success threshold 2. -/
def cfgOrch : CBConfig :=
  { failure_threshold := 3, recovery_timeout := 30, success_threshold := 2 }

/-- Three consecutive failures at times 0, 1, 2. -/
def trThreeFails : List (ℚ × CallOutcome) :=
  [(0, CallOutcome.failure), (1, CallOutcome.failure), (2, CallOutcome.failure)]

/-- An Open breaker whose last failure happened at time 0. -/
def cbOpenW : CBreaker :=
  { state := CBState.opened, failure_count := 3, success_count := 0,
    last_failure_time := some 0 }

/-! ## Documents and sitemap entries (`types.py`) -/

/-- Model of a `datetime` value (naive UTC, as the code formats it). -/
structure DateTimeM where
  year : Nat
  month : Nat
  day : Nat
  hour : Nat
  minute : Nat
  second : Nat
deriving DecidableEq, Repr

/-- `SolrDocument`. -/
structure SolrDocument where
  id : String
  last_modified : Option DateTimeM
deriving DecidableEq, Repr

/-- `SitemapEntry`. -/
structure SitemapEntry where
  url : String
  last_modified : Option DateTimeM
  changefreq : String
deriving DecidableEq, Repr

/-! ## Health check retry (`ProcessingOrchestrator._perform_health_check_with_retry`) -/

/-- Outcome of one `solr_client.health_check()` attempt as seen by the retry
driver: a returned boolean, a raised `SolrConnectionError`, or any other
raised exception. -/
inductive HealthOutcome where
  | okTrue
  | okFalse
  | connErr
  | otherErr
deriving DecidableEq, Repr

/-- What a run of the retry driver did: how many attempts were made, the
returned boolean, and the back-off delays slept (in seconds, in order). -/
structure HealthRun where
  attempts : Nat
  result : Bool
  delays : List ℚ
deriving DecidableEq, Repr

/-- The `for attempt in range(max_retries + 1)` loop; `fuel` is the number of
loop iterations left, `attempt` the current index, `delay` the current
`retry_delay`, `made` the attempts made so far, `ds` the delays slept so
far. -/
def healthLoop (oc : Nat → HealthOutcome) (maxRetries : Nat) :
    Nat → Nat → ℚ → Nat → List ℚ → HealthRun
  | 0, _, _, made, ds => ⟨made, false, ds⟩
  | fuel + 1, attempt, delay, made, ds =>
    match oc attempt with
    | HealthOutcome.okTrue => ⟨made + 1, true, ds⟩
    | HealthOutcome.okFalse => healthLoop oc maxRetries fuel (attempt + 1) delay (made + 1) ds
    | HealthOutcome.connErr =>
        if attempt < maxRetries then
          healthLoop oc maxRetries fuel (attempt + 1) (delay * (3 / 2)) (made + 1)
            (ds ++ [delay])
        else healthLoop oc maxRetries fuel (attempt + 1) delay (made + 1) ds
    | HealthOutcome.otherErr => ⟨made + 1, false, ds⟩

/-- `_perform_health_check_with_retry` with its default arguments
`max_retries` and `retry_delay`. -/
def healthRetry (oc : Nat → HealthOutcome) (maxRetries : Nat) (d0 : ℚ) : HealthRun :=
  healthLoop oc maxRetries (maxRetries + 1) 0 d0 0 []

/-! ## Extraction pagination (`ProcessingOrchestrator._process_documents_to_entries`) -/

/-- Result of one `solr_client.fetch_docs_batch` call: a document list, a
`SolrConnectionError` (whose message does or does not contain "timeout"), or
any other exception. -/
inductive FetchOutcome where
  | ok (docs : List SolrDocument)
  | connErr (timeoutMsg : Bool)
  | otherErr
deriving DecidableEq, Repr

/-- The remote and collaborator behaviour one core's pipeline observes:
health-check outcomes per attempt, the `get_total_docs` result, the
`fetch_docs_batch` result per (offset, limit), and `url_builder.build_url`
per document id (`none` models a raised exception). -/
structure CoreEnv where
  healthOutcomes : Nat → HealthOutcome
  countResult : Except Unit Nat
  fetch : Nat → Nat → FetchOutcome
  buildUrl : String → Option String

/-- The fields of `SolrCoreConfig` the extraction loop reads. -/
structure CoreCfg where
  name : String
  changefreq : String
  batch_size : Nat
deriving DecidableEq, Repr

/-- Mutable state of the pagination loop, instrumented with the number of
fetches issued and the log of (offset, limit) requests. -/
structure LoopState where
  offset : Nat
  processed : Nat
  entries : List SitemapEntry
  errors : Nat
  fetchCount : Nat
  reqs : List (Nat × Nat)
deriving DecidableEq, Repr

def initLoop : LoopState := ⟨0, 0, [], 0, 0, []⟩

/-- One document through `url_builder.build_url` and `SitemapEntry(...)`;
`none` models the per-document exception path. -/
def convertDoc (env : CoreEnv) (cfg : CoreCfg) (d : SolrDocument) : Option SitemapEntry :=
  (env.buildUrl d.id).map (fun u => ⟨u, d.last_modified, cfg.changefreq⟩)

def convertedEntries (env : CoreEnv) (cfg : CoreCfg) (docs : List SolrDocument) :
    List SitemapEntry :=
  docs.filterMap (convertDoc env cfg)

def convertFailures (env : CoreEnv) (cfg : CoreCfg) (docs : List SolrDocument) : Nat :=
  docs.countP (fun d => (convertDoc env cfg d).isNone)

/-- Whether one iteration of the `while True:` loop fell out of the loop
(`done`, via `break` or generator end) or reached a `continue`/loop end. -/
inductive StepRes where
  | done (s : LoopState)
  | cont (s : LoopState)
deriving DecidableEq, Repr

/-- One iteration of the pagination loop: fetch at the current offset; on
documents, convert each (per-document failures are counted, not raised),
advance by the batch length and stop on an empty or short batch; on a
connection error, record the error, and either retry once at the same offset
with `max(100, batch_size // 2)` rows (timeout-flavoured message within the
first 3 batch widths) or skip one full batch width; on any other exception,
record the error and stop. -/
def extractStep (env : CoreEnv) (cfg : CoreCfg) (s : LoopState) : StepRes :=
  let bs := cfg.batch_size
  match env.fetch s.offset bs with
  | FetchOutcome.ok docs =>
    let s1 := { s with fetchCount := s.fetchCount + 1, reqs := s.reqs ++ [(s.offset, bs)] }
    if docs.isEmpty then StepRes.done s1
    else
      let s2 := { s1 with
        entries := s1.entries ++ convertedEntries env cfg docs,
        processed := s1.processed + (convertedEntries env cfg docs).length,
        errors := s1.errors + convertFailures env cfg docs,
        offset := s1.offset + docs.length }
      if docs.length < bs then StepRes.done s2 else StepRes.cont s2
  | FetchOutcome.connErr tmo =>
    let s1 := { s with
      fetchCount := s.fetchCount + 1,
      reqs := s.reqs ++ [(s.offset, bs)],
      errors := s.errors + 1 }
    if tmo = true ∧ s.offset < 3 * bs then
      let reduced := max 100 (bs / 2)
      match env.fetch s.offset reduced with
      | FetchOutcome.ok docs2 =>
        StepRes.cont { s1 with
          fetchCount := s1.fetchCount + 1,
          reqs := s1.reqs ++ [(s.offset, reduced)],
          entries := s1.entries ++ convertedEntries env cfg docs2,
          processed := s1.processed + (convertedEntries env cfg docs2).length,
          offset := s.offset + docs2.length }
      | FetchOutcome.connErr _ =>
        StepRes.cont { s1 with
          fetchCount := s1.fetchCount + 1,
          reqs := s1.reqs ++ [(s.offset, reduced)],
          offset := s.offset + bs }
      | FetchOutcome.otherErr =>
        StepRes.cont { s1 with
          fetchCount := s1.fetchCount + 1,
          reqs := s1.reqs ++ [(s.offset, reduced)],
          offset := s.offset + bs }
    else StepRes.cont { s1 with offset := s.offset + bs }
  | FetchOutcome.otherErr =>
    StepRes.done { s with
      fetchCount := s.fetchCount + 1,
      reqs := s.reqs ++ [(s.offset, bs)],
      errors := s.errors + 1 }

/-- The pagination loop itself, with fuel bounding the number of iterations;
the boolean reports whether the loop exited on its own before the fuel ran
out. -/
def extractLoop (env : CoreEnv) (cfg : CoreCfg) : Nat → LoopState → LoopState × Bool
  | 0, s => (s, false)
  | fuel + 1, s =>
    match extractStep env cfg s with
    | StepRes.done s2 => (s2, true)
    | StepRes.cont s2 => extractLoop env cfg fuel s2

/-- Environment of a healthy source holding exactly the documents `store`,
served in ascending order by offset/limit slicing (the Solr contract for
`start`/`rows` with a stable sort). -/
def storeEnv (store : List SolrDocument) : CoreEnv :=
  { healthOutcomes := fun _ => HealthOutcome.okTrue,
    countResult := Except.ok store.length,
    fetch := fun o l => FetchOutcome.ok ((store.drop o).take l),
    buildUrl := fun i => some i }

/-! ## Sitemap assembly (`sitemap_generator.py`) -/

/-- The buffering loop of `generate_sitemaps`: append each entry to
`current_entries` and flush a chunk whenever the buffer reaches
`max_urls_per_file`; a nonempty remainder is flushed at the end. -/
def chunkAux (m : Nat) :
    List SitemapEntry → List SitemapEntry → List (List SitemapEntry) →
    List (List SitemapEntry)
  | [], cur, files => if cur.isEmpty then files else files ++ [cur]
  | e :: es, cur, files =>
    let cur2 := cur ++ [e]
    if m ≤ cur2.length then chunkAux m es [] (files ++ [cur2])
    else chunkAux m es cur2 files

def chunkEntries (m : Nat) (es : List SitemapEntry) : List (List SitemapEntry) :=
  chunkAux m es [] []

def gzSuffix (compress : Bool) : String := if compress then ".gz" else ""

/-- Filename policy of `_create_sitemap_file` (plus the `.gz` suffix added by
`_compress_file` when compression replaces the plain artifact). -/
def dataFileName (core : String) (m : Nat) (compress : Bool) (num len : Nat) : String :=
  (if num = 1 ∧ len < m then "sitemap_" ++ core ++ ".xml"
   else "sitemap_" ++ core ++ "_" ++ toString num ++ ".xml") ++ gzSuffix compress

/-- A generated artifact: a data sitemap file with its entries, or an index
file with the locations it references. -/
inductive GenFile where
  | data (name : String) (entries : List SitemapEntry)
  | index (name : String) (locs : List String)
deriving DecidableEq, Repr

def genFileName : GenFile → String
  | GenFile.data n _ => n
  | GenFile.index n _ => n

def isDataFile : GenFile → Bool
  | GenFile.data _ _ => true
  | GenFile.index _ _ => false

def dataFileEntries : GenFile → List SitemapEntry
  | GenFile.data _ es => es
  | GenFile.index _ _ => []

/-- Numbering of flushed chunks by the incrementing `file_counter`. -/
def nameChunks (core : String) (m : Nat) (compress : Bool) :
    Nat → List (List SitemapEntry) → List GenFile
  | _, [] => []
  | i, c :: cs =>
    GenFile.data (dataFileName core m compress i c.length) c ::
      nameChunks core m compress (i + 1) cs

/-- Location written into an index: absolute when a base URL is configured
(the generator holds it already stripped of trailing slashes), else the bare
filename. -/
def indexLoc (baseUrl fname : String) : String :=
  if baseUrl = "" then fname else baseUrl ++ "/" ++ fname

/-- `generate_sitemaps` for one source: split into data files, and when more
than one was generated, prepend a per-source index referencing each of
them. -/
def generateSitemaps (m : Nat) (compress : Bool) (baseUrl core : String)
    (es : List SitemapEntry) : List GenFile :=
  let dataFiles := nameChunks core m compress 1 (chunkEntries m es)
  if 1 < dataFiles.length then
    GenFile.index ("sitemap_index_" ++ core ++ ".xml" ++ gzSuffix compress)
      (dataFiles.map (fun f => indexLoc baseUrl (genFileName f))) :: dataFiles
  else dataFiles

/-! ## Sitemap XML (`SitemapGenerator._create_sitemap_xml`) -/

/-- A leaf `SubElement` with text (`loc`, `lastmod`, `changefreq`). -/
structure XmlLeaf where
  tag : String
  text : String
deriving DecidableEq, Repr

/-- A `url` element and its children, in insertion order. -/
structure UrlElem where
  children : List XmlLeaf
deriving DecidableEq, Repr

/-- The `urlset` root element. -/
structure UrlsetXml where
  xmlns : String
  urls : List UrlElem
deriving DecidableEq, Repr

def pad2 (n : Nat) : String := if n < 10 then "0" ++ toString n else toString n

def pad4 (n : Nat) : String :=
  if n < 10 then "000" ++ toString n
  else if n < 100 then "00" ++ toString n
  else if n < 1000 then "0" ++ toString n
  else toString n

/-- `strftime('%Y-%m-%dT%H:%M:%S+00:00')`. -/
def formatLastmod (t : DateTimeM) : String :=
  pad4 t.year ++ "-" ++ pad2 t.month ++ "-" ++ pad2 t.day ++ "T" ++
  pad2 t.hour ++ ":" ++ pad2 t.minute ++ ":" ++ pad2 t.second ++ "+00:00"

/-- One `url` element: `loc` always, `lastmod` when the entry carries a
timestamp, `changefreq` when the entry's changefreq string is truthy. -/
def urlElement (e : SitemapEntry) : UrlElem :=
  { children :=
      [⟨"loc", e.url⟩]
      ++ (match e.last_modified with
          | some t => [⟨"lastmod", formatLastmod t⟩]
          | none => [])
      ++ (if e.changefreq = "" then [] else [⟨"changefreq", e.changefreq⟩]) }

def createSitemapXml (es : List SitemapEntry) : UrlsetXml :=
  { xmlns := "http://www.sitemaps.org/schemas/sitemap/0.9",
    urls := es.map urlElement }

def leavesWithTag (u : UrlElem) (tg : String) : List XmlLeaf :=
  u.children.filter (fun c => c.tag == tg)

/-! ## URL building (`url_builder.py`).  String scanning is modelled on
`List Char`, converting at the boundaries. -/

def startsWithList : List Char → List Char → Bool
  | [], _ => true
  | _ :: _, [] => false
  | p :: ps, c :: cs => p == c && startsWithList ps cs

/-- Whether `pat` occurs as a contiguous run inside the list (the
`'{id}' in self.url_pattern` membership test). -/
def containsTok (pat : List Char) : List Char → Bool
  | [] => startsWithList pat []
  | c :: cs => startsWithList pat (c :: cs) || containsTok pat cs

/-- Number of non-overlapping, left-to-right occurrences of `pat`; the fuel
(started at the list's length, which bounds the scan) keeps the recursion
structural. -/
def countTokAux (pat : List Char) : Nat → List Char → Nat
  | 0, _ => 0
  | _, [] => 0
  | fuel + 1, c :: cs =>
    if startsWithList pat (c :: cs) ∧ 0 < pat.length then
      1 + countTokAux pat fuel (cs.drop (pat.length - 1))
    else countTokAux pat fuel cs

def countTok (pat s : List Char) : Nat := countTokAux pat s.length s

/-- `str.replace(pat, repl)`: replace every non-overlapping, left-to-right
occurrence (structural via a length fuel). -/
def replaceTokAux (pat repl : List Char) : Nat → List Char → List Char
  | 0, s => s
  | _, [] => []
  | fuel + 1, c :: cs =>
    if startsWithList pat (c :: cs) ∧ 0 < pat.length then
      repl ++ replaceTokAux pat repl fuel (cs.drop (pat.length - 1))
    else c :: replaceTokAux pat repl fuel cs

def replaceTok (pat repl s : List Char) : List Char := replaceTokAux pat repl s.length s

/-- `re.findall` of the placeholder regex: contents of each brace-pair whose
body is nonempty and free of closing braces (structural via a length fuel). -/
def findPlaceholdersAux : Nat → List Char → List String
  | 0, _ => []
  | _, [] => []
  | fuel + 1, c :: cs =>
    if c = '{' then
      let content := cs.takeWhile (fun d => d ≠ '}')
      let rest := cs.dropWhile (fun d => d ≠ '}')
      if rest.isEmpty then findPlaceholdersAux fuel cs
      else if content.isEmpty then findPlaceholdersAux fuel cs
      else List.asString content :: findPlaceholdersAux fuel rest.tail
    else findPlaceholdersAux fuel cs

def findPlaceholders (s : List Char) : List String := findPlaceholdersAux s.length s

/-- Everything before the first `/`, `?` or `#`: the netloc of a URL whose
scheme prefix has been removed. -/
def netlocOf (s : List Char) : List Char :=
  s.takeWhile (fun c => c ≠ '/' ∧ c ≠ '?' ∧ c ≠ '#')

/-- Python truthiness of `s.strip()` negated: the string is empty or all
whitespace (`not s or not s.strip()`). -/
def isPyBlank (s : String) : Bool :=
  s.toList.all (fun c =>
    c = ' ' ∨ c = '\t' ∨ c = '\n' ∨ c = '\r' ∨ c = '\x0b' ∨ c = '\x0c')

/-- `str.startswith` on the model's character lists. -/
def startsWithStr (s pre : String) : Bool :=
  startsWithList pre.toList s.toList

/-- `URLBuilder._is_valid_url` on the http(s)-prefixed strings the builder
feeds it: scheme must be http or https and the netloc nonempty and not
blank. -/
def isValidUrl (url : String) : Bool :=
  if startsWithStr url "http://" then
    !(isPyBlank (List.asString (netlocOf (url.toList.drop 7))))
  else if startsWithStr url "https://" then
    !(isPyBlank (List.asString (netlocOf (url.toList.drop 8))))
  else false

/-- `URLBuilder.validate_pattern`: nonblank, http(s) scheme, contains the
substitution token, no unsupported placeholders, and the test substitution
yields a valid URL. -/
def validatePattern (p : String) : Bool :=
  if isPyBlank p then false
  else if !(startsWithStr p "http://" || startsWithStr p "https://") then false
  else if !(containsTok "{id}".toList p.toList) then false
  else if (findPlaceholders p.toList).any (fun ph => ph != "id") then false
  else isValidUrl (List.asString (replaceTok "{id}".toList "test-id-123".toList p.toList))

structure URLBuilderM where
  url_pattern : String
  base_url : String
deriving DecidableEq, Repr

/-- `URLBuilder.__init__`: validation runs eagerly at construction and a bad
pattern raises `ConfigurationError`. -/
def mkURLBuilder (p baseUrl : String) : Except String URLBuilderM :=
  if validatePattern p then Except.ok ⟨p, baseUrl⟩
  else Except.error "ConfigurationError"

def hexDigitChar (n : Nat) : Char :=
  if n < 10 then Char.ofNat (48 + n) else Char.ofNat (55 + n)

/-- UTF-8 bytes of a code point (what `quote` percent-encodes). -/
def utf8Bytes (c : Char) : List Nat :=
  let n := c.toNat
  if n < 128 then [n]
  else if n < 2048 then [192 + n / 64, 128 + n % 64]
  else if n < 65536 then [224 + n / 4096, 128 + (n / 64) % 64, 128 + n % 64]
  else [240 + n / 262144, 128 + (n / 4096) % 64, 128 + (n / 64) % 64, 128 + n % 64]

/-- The characters `urllib.parse.quote` never encodes (letters, digits,
`_.-~`; `safe=''` adds nothing). -/
def isUnreservedChar (c : Char) : Bool :=
  c.isAlpha || c.isDigit || c = '-' || c = '.' || c = '_' || c = '~'

def percentEncodeChar (c : Char) : List Char :=
  if isUnreservedChar c then [c]
  else (utf8Bytes c).foldr
    (fun b acc => '%' :: hexDigitChar (b / 16) :: hexDigitChar (b % 16) :: acc) []

/-- `quote(document_id, safe='')`. -/
def percentEncode (s : String) : String :=
  List.asString (s.toList.foldr (fun c acc => percentEncodeChar c ++ acc) [])

/-- `URLBuilder.build_url`: reject empty/blank ids, percent-encode, substitute
every token occurrence, and validate the result. -/
def buildUrlM (b : URLBuilderM) (docId : String) : Except String String :=
  if isPyBlank docId then Except.error "ValueError: empty id"
  else
    let url := List.asString
      (replaceTok "{id}".toList (percentEncode docId).toList b.url_pattern.toList)
    if isValidUrl url then Except.ok url else Except.error "ValueError: invalid URL"

/-- Whether an `Except` is a success. -/
def exceptOk {ε α : Type} : Except ε α → Bool
  | Except.ok _ => true
  | Except.error _ => false

/-! ## Result aggregation and the per-core pipeline (`orchestrator.py`).
Timing fields are carried but not computed from a clock. -/

/-- `CoreResult` (`processing_time` omitted: wall-clock only). -/
structure CoreResultM where
  core_name : String
  total_docs : Nat
  processed_docs : Nat
  sitemap_files : List String
  errors : List String
deriving DecidableEq, Repr

/-- `ProcessingResult`. -/
structure ProcessingResultM where
  core_results : List CoreResultM
  total_urls : Nat
  total_files : Nat
  total_time : ℚ
  success_rate : ℚ
deriving DecidableEq, Repr

/-- `total_urls` of `_calculate_overall_result`: sum of processed docs. -/
def sumProcessed (rs : List CoreResultM) : Nat :=
  (rs.map (fun r => r.processed_docs)).sum

/-- `total_docs_attempted` of `_calculate_overall_result`. -/
def sumAttempted (rs : List CoreResultM) : Nat :=
  (rs.map (fun r => r.total_docs)).sum

/-- `total_files` of `_calculate_overall_result`. -/
def sumFiles (rs : List CoreResultM) : Nat :=
  (rs.map (fun r => r.sitemap_files.length)).sum

/-- `ProcessingOrchestrator._calculate_overall_result`. -/
def calculateOverallResult (rs : List CoreResultM) (t : ℚ) : ProcessingResultM :=
  { core_results := rs,
    total_urls := sumProcessed rs,
    total_files := sumFiles rs,
    total_time := t,
    success_rate :=
      if 0 < sumAttempted rs then
        ((sumProcessed rs : ℚ) / (sumAttempted rs : ℚ)) * 100
      else 0 }

/-- The zeroed `CoreResult` built in `process_all_cores` for a pipeline that
ended in an exception. -/
def failedCoreResult (name msg : String) : CoreResultM :=
  ⟨name, 0, 0, [], ["Processing failed: " ++ msg]⟩

/-- The tail of `process_all_cores` after `asyncio.gather`: per-core outcomes
(name, result-or-exception) are mapped to results, exceptions becoming zeroed
failed results, then aggregated. -/
def processAllCores (items : List (String × Except String CoreResultM)) (t : ℚ) :
    ProcessingResultM :=
  calculateOverallResult
    (items.map (fun it =>
      match it.2 with
      | Except.error m => failedCoreResult it.1 m
      | Except.ok r => r)) t

/-- Total documents attempted across per-core outcomes (failed pipelines
contribute the 0 of their zeroed result). -/
def aggTotal (items : List (String × Except String CoreResultM)) : Nat :=
  (items.map (fun it =>
    match it.2 with
    | Except.ok r => r.total_docs
    | Except.error _ => 0)).sum

/-- Processed documents across per-core outcomes. -/
def aggProcessed (items : List (String × Except String CoreResultM)) : Nat :=
  (items.map (fun it =>
    match it.2 with
    | Except.ok r => r.processed_docs
    | Except.error _ => 0)).sum

/-- `process_core` control flow: health check (failure only recorded), count
(failure yields a zeroed result), empty core short-circuits, otherwise
extraction feeds the sitemap generator and the result reports
`processed_docs := total_docs`. -/
def processCoreM (env : CoreEnv) (cfg : CoreCfg) (m : Nat) (compress : Bool)
    (baseUrl : String) (fuel : Nat) : CoreResultM :=
  let healthOk := (healthRetry env.healthOutcomes 3 2).result
  let errs := if healthOk then []
    else ["Core health check failed after retries"]
  match env.countResult with
  | Except.error _ => ⟨cfg.name, 0, 0, [], errs ++ ["Failed to get document count"]⟩
  | Except.ok n =>
    if n = 0 then ⟨cfg.name, 0, 0, [], errs⟩
    else
      let ex := (extractLoop env cfg fuel initLoop).1
      let files := generateSitemaps m compress baseUrl cfg.name ex.entries
      ⟨cfg.name, n, n, files.map genFileName, errs⟩

lemma failStreak_append_failure (t : List (ℚ × CallOutcome)) (q : ℚ) :
    failStreak (t ++ [(q, CallOutcome.failure)]) = failStreak t + 1 := by
  simp only [failStreak, List.foldl_append, List.foldl_cons, List.foldl_nil]

lemma failStreak_append_success (t : List (ℚ × CallOutcome)) (q : ℚ) :
    failStreak (t ++ [(q, CallOutcome.success)]) = 0 := by
  simp only [failStreak, List.foldl_append, List.foldl_cons, List.foldl_nil]

lemma runBreaker_append (cfg : CBConfig) (cb : CBreaker)
    (t : List (ℚ × CallOutcome)) (e : ℚ × CallOutcome) :
    runBreaker cfg cb (t ++ [e]) = (cbCall cfg e.1 e.2 (runBreaker cfg cb t)).2 := by
  simp only [runBreaker, List.foldl_append, List.foldl_cons, List.foldl_nil]

/-- While every failure streak stays below the threshold, a breaker started
Closed with zero counters stays Closed, its failure counter tracking the
current streak and its success counter staying zero. -/
lemma run_stays_closed (cfg : CBConfig) (tr : List (ℚ × CallOutcome))
    (hall : ∀ k : Nat, failStreak (tr.take k) < cfg.failure_threshold) :
    (runBreaker cfg initBreaker tr).state = CBState.closed ∧
    (runBreaker cfg initBreaker tr).failure_count = failStreak tr ∧
    (runBreaker cfg initBreaker tr).success_count = 0 := by
  induction tr using List.reverseRecOn with
  | nil => simp [runBreaker, initBreaker, failStreak]
  | append_singleton t e ih =>
    have hall' : ∀ k : Nat, failStreak (t.take k) < cfg.failure_threshold := by
      intro k
      rcases le_or_lt k t.length with h | h
      · have hk : (t ++ [e]).take k = t.take k := List.take_append_of_le_length h
        have := hall k
        rwa [hk] at this
      · have h1 : t.take k = t := List.take_of_length_le h.le
        have h2 : (t ++ [e]).take t.length = t := List.take_left t [e]
        have := hall t.length
        rw [h2] at this
        rwa [h1]
    obtain ⟨hs, hf, hc⟩ := ih hall'
    set r := runBreaker cfg initBreaker t with hr
    rw [runBreaker_append]
    obtain ⟨q, oc⟩ := e
    cases oc with
    | success =>
      have hne : r.state ≠ CBState.opened := by rw [hs]; intro h; cases h
      have hnh : r.state ≠ CBState.halfOpen := by rw [hs]; intro h; cases h
      simp [cbCall, onSuccess, hne, hnh, ← hr, hs, failStreak_append_success, hc]
    | failure =>
      have hne : r.state ≠ CBState.opened := by rw [hs]; intro h; cases h
      have hnh : r.state ≠ CBState.halfOpen := by rw [hs]; intro h; cases h
      have hlt : failStreak t + 1 < cfg.failure_threshold := by
        have h2 : (t ++ [(q, CallOutcome.failure)]).take (t ++ [(q, CallOutcome.failure)]).length
            = t ++ [(q, CallOutcome.failure)] := List.take_length _
        have := hall (t ++ [(q, CallOutcome.failure)]).length
        rw [h2, failStreak_append_failure] at this
        exact this
      have hnth : ¬ cfg.failure_threshold ≤ failStreak t + 1 := by omega
      simp [cbCall, onFailure, hne, hnh, ← hr, hs, hnth, failStreak_append_failure, hf, hc]

/-- C1: starting from a Closed breaker with zero counters, the breaker
transitions to Open exactly when the failure streak since the last success
reaches `failure_threshold` and never on fewer failures (while Closed the
failure counter equals the current streak), and any success while Closed
resets the failure counter to zero. -/
theorem breaker_opens_exactly_at_threshold (cfg : CBConfig)
    (hth : 1 ≤ cfg.failure_threshold) (tr : List (ℚ × CallOutcome))
    (hlow : ∀ k : Nat, k < tr.length → failStreak (tr.take k) < cfg.failure_threshold) :
    ((runBreaker cfg initBreaker tr).state = CBState.opened ↔
       cfg.failure_threshold ≤ failStreak tr)
    ∧ ((runBreaker cfg initBreaker tr).state = CBState.closed →
       (runBreaker cfg initBreaker tr).failure_count = failStreak tr)
    ∧ (∀ cb : CBreaker, cb.state = CBState.closed → ∀ t : ℚ,
        (cbCall cfg t CallOutcome.success cb).2.failure_count = 0 ∧
        (cbCall cfg t CallOutcome.success cb).2.state = CBState.closed) := by
  have hreset : ∀ cb : CBreaker, cb.state = CBState.closed → ∀ t : ℚ,
      (cbCall cfg t CallOutcome.success cb).2.failure_count = 0 ∧
      (cbCall cfg t CallOutcome.success cb).2.state = CBState.closed := by
    intro cb hcb t
    have hne : cb.state ≠ CBState.opened := by rw [hcb]; intro h; cases h
    have hnh : cb.state ≠ CBState.halfOpen := by rw [hcb]; intro h; cases h
    simp [cbCall, onSuccess, hne, hnh, hcb]
  by_cases hge : cfg.failure_threshold ≤ failStreak tr
  · rcases List.eq_nil_or_concat tr with rfl | ⟨L, b, rfl⟩
    · exfalso
      have : failStreak ([] : List (ℚ × CallOutcome)) = 0 := by simp [failStreak]
      omega
    · rw [List.concat_eq_append] at *
      obtain ⟨q, oc⟩ := b
      cases oc with
      | success =>
        exfalso
        rw [failStreak_append_success] at hge
        omega
      | failure =>
        have hL : ∀ k : Nat, failStreak (L.take k) < cfg.failure_threshold := by
          intro k
          rcases le_or_lt k L.length with h | h
          · have hk : (L ++ [(q, CallOutcome.failure)]).take k = L.take k :=
              List.take_append_of_le_length h
            have := hlow k (by simp; omega)
            rwa [hk] at this
          · have h1 : L.take k = L := List.take_of_length_le h.le
            have h2 : (L ++ [(q, CallOutcome.failure)]).take L.length = L :=
              List.take_left L _
            have := hlow L.length (by simp)
            rw [h2] at this
            rwa [h1]
        obtain ⟨hs, hf, hc⟩ := run_stays_closed cfg L hL
        set r := runBreaker cfg initBreaker L with hr
        have hne : r.state ≠ CBState.opened := by rw [hs]; intro h; cases h
        have hnh : r.state ≠ CBState.halfOpen := by rw [hs]; intro h; cases h
        have hstep : runBreaker cfg initBreaker (L ++ [(q, CallOutcome.failure)])
            = (cbCall cfg q CallOutcome.failure r).2 := runBreaker_append ..
        have hth2 : cfg.failure_threshold ≤ r.failure_count + 1 := by
          rw [failStreak_append_failure] at hge
          rw [hf]; omega
        have hopen : (cbCall cfg q CallOutcome.failure r).2.state = CBState.opened := by
          simp [cbCall, onFailure, hne, hnh, ← hr, hs, hth2, transitionToOpen]
        refine ⟨?_, ?_, hreset⟩
        · rw [hstep, hopen]
          simp [hge]
        · rw [hstep, hopen]
          intro h
          cases h
  · have hall : ∀ k : Nat, failStreak (tr.take k) < cfg.failure_threshold := by
      intro k
      rcases lt_or_le k tr.length with h | h
      · exact hlow k h
      · rw [List.take_of_length_le h]
        omega
    obtain ⟨hs, hf, _⟩ := run_stays_closed cfg tr hall
    refine ⟨?_, fun _ => hf, hreset⟩
    rw [hs]
    constructor
    · intro h; cases h
    · intro h; exact absurd h hge

theorem breaker_opens_exactly_at_threshold_witness :
    (1 ≤ cfgOrch.failure_threshold) ∧
    (((runBreaker cfgOrch initBreaker trThreeFails).state = CBState.opened ↔
        cfgOrch.failure_threshold ≤ failStreak trThreeFails)
     ∧ ((runBreaker cfgOrch initBreaker trThreeFails).state = CBState.closed →
        (runBreaker cfgOrch initBreaker trThreeFails).failure_count = failStreak trThreeFails)
     ∧ (∀ cb : CBreaker, cb.state = CBState.closed → ∀ t : ℚ,
         (cbCall cfgOrch t CallOutcome.success cb).2.failure_count = 0 ∧
         (cbCall cfgOrch t CallOutcome.success cb).2.state = CBState.closed)) :=
  ⟨by decide,
   breaker_opens_exactly_at_threshold cfgOrch (by decide) trThreeFails (by decide)⟩

lemma runBreaker_cons (cfg : CBConfig) (cb : CBreaker) (e : ℚ × CallOutcome)
    (tr : List (ℚ × CallOutcome)) :
    runBreaker cfg cb (e :: tr) = runBreaker cfg (cbCall cfg e.1 e.2 cb).2 tr := rfl

lemma run_successes_closed_zero (cfg : CBConfig) (l : Option ℚ) (n : Nat) :
    runBreaker cfg
      { state := CBState.closed, failure_count := 0, success_count := 0,
        last_failure_time := l }
      (List.replicate n ((0 : ℚ), CallOutcome.success)) =
      { state := CBState.closed, failure_count := 0, success_count := 0,
        last_failure_time := l } := by
  induction n with
  | zero => simp [runBreaker]
  | succ n ih =>
    rw [List.replicate_succ, runBreaker_cons]
    have hstep : (cbCall cfg (0 : ℚ) CallOutcome.success
        { state := CBState.closed, failure_count := 0, success_count := 0,
          last_failure_time := l }).2 =
        { state := CBState.closed, failure_count := 0, success_count := 0,
          last_failure_time := l } := by
      simp [cbCall, onSuccess]
    rw [hstep, ih]

/-- In HalfOpen with the success counter below the threshold, `n` consecutive
successful probes either accumulate into the counter or, once the threshold is
reached, close the breaker with both counters reset. -/
lemma run_successes_halfOpen (cfg : CBConfig) :
    ∀ (n : Nat) (s : CBreaker), s.state = CBState.halfOpen →
    s.success_count < cfg.success_threshold →
    runBreaker cfg s (List.replicate n ((0 : ℚ), CallOutcome.success)) =
      if s.success_count + n < cfg.success_threshold
      then { s with success_count := s.success_count + n }
      else { state := CBState.closed, failure_count := 0, success_count := 0,
             last_failure_time := s.last_failure_time } := by
  intro n
  induction n with
  | zero =>
    intro s hs hlt
    rw [if_pos (by omega)]
    simp [runBreaker]
  | succ n ih =>
    intro s hs hlt
    rw [List.replicate_succ, runBreaker_cons]
    have hne : s.state ≠ CBState.opened := by rw [hs]; intro h; cases h
    by_cases h : cfg.success_threshold ≤ s.success_count + 1
    · have hstep : (cbCall cfg (0 : ℚ) CallOutcome.success s).2 =
          { state := CBState.closed, failure_count := 0, success_count := 0,
            last_failure_time := s.last_failure_time } := by
        simp [cbCall, onSuccess, hne, hs, h, transitionToClosed]
      rw [hstep, run_successes_closed_zero]
      rw [if_neg (by omega)]
    · have hstep : (cbCall cfg (0 : ℚ) CallOutcome.success s).2 =
          { s with success_count := s.success_count + 1 } := by
        simp [cbCall, onSuccess, hne, hs, h]
      rw [hstep, ih _ (by simpa using hs) (by simpa using by omega)]
      have harith : s.success_count + 1 + n = s.success_count + (n + 1) := by omega
      simp only [harith]

/-- C2 counterexample: with the orchestrator's breaker configuration
(`success_threshold = 2`), a breaker that is Open with `last_failure_time = 0`
receives a call at time 30 (the recovery timeout has elapsed), the probe
succeeds, and the resulting state is HalfOpen — not Closed as the claim's
"exactly one probing call decides the next stable state" asserts. -/
theorem circuit_open_single_probe_cex :
    shouldAttemptReset cfgOrch 30 cbOpenW = true ∧
    (cbCall cfgOrch 30 CallOutcome.success cbOpenW).2.state = CBState.halfOpen ∧
    ¬ (cbCall cfgOrch 30 CallOutcome.success cbOpenW).2.state = CBState.closed := by
  have h : shouldAttemptReset cfgOrch 30 cbOpenW = true := by
    simp [shouldAttemptReset, cbOpenW, cfgOrch]
  have h2 : (cbCall cfgOrch 30 CallOutcome.success cbOpenW).2.state = CBState.halfOpen := by
    simp [cbCall, cbOpenW, cfgOrch, shouldAttemptReset, onSuccess, transitionToHalfOpen]
  refine ⟨h, h2, ?_⟩
  rw [h2]
  intro hctr
  cases hctr

/-- C2 (amended): while Open and before `recovery_timeout` has elapsed since
`last_failure_time`, every call fails fast without executing the operation and
leaves the breaker unchanged; once the timeout has elapsed, the next call
transitions to HalfOpen and executes as a probe, a probe failure returning the
breaker to Open immediately, while a single probe success yields Closed only
when `success_threshold ≤ 1` and otherwise leaves the breaker in HalfOpen;
from HalfOpen, `success_threshold` consecutive successful probes (and no
fewer) yield Closed with both counters reset. -/
theorem circuit_open_recovery_probe (cfg : CBConfig) (cb : CBreaker) (t now : ℚ)
    (hst : cb.state = CBState.opened) (hlft : cb.last_failure_time = some t) :
    (now - t < cfg.recovery_timeout →
       ∀ oc : CallOutcome, cbCall cfg now oc cb = (CallResult.fastFail, cb))
    ∧ (cfg.recovery_timeout ≤ now - t →
        ((cbCall cfg now CallOutcome.failure cb).1 = CallResult.err ∧
         (cbCall cfg now CallOutcome.failure cb).2.state = CBState.opened) ∧
        ((cbCall cfg now CallOutcome.success cb).1 = CallResult.ok ∧
         (cbCall cfg now CallOutcome.success cb).2.state =
           (if cfg.success_threshold ≤ 1 then CBState.closed else CBState.halfOpen)))
    ∧ (1 ≤ cfg.success_threshold →
        ∀ s : CBreaker, s.state = CBState.halfOpen → s.success_count = 0 →
        ∀ n : Nat,
          ((runBreaker cfg s (List.replicate n ((0 : ℚ), CallOutcome.success))).state
              = CBState.closed ↔ cfg.success_threshold ≤ n)
          ∧ (cfg.success_threshold ≤ n →
              (runBreaker cfg s (List.replicate n ((0 : ℚ), CallOutcome.success))).failure_count = 0 ∧
              (runBreaker cfg s (List.replicate n ((0 : ℚ), CallOutcome.success))).success_count = 0)) := by
  refine ⟨?_, ?_, ?_⟩
  · intro h oc
    have hnr : ¬ (cfg.recovery_timeout ≤ now - t) := not_le.mpr h
    simp [cbCall, hst, shouldAttemptReset, hlft, hnr]
  · intro h
    have hr : shouldAttemptReset cfg now cb = true := by
      simp [shouldAttemptReset, hlft, h]
    constructor
    · constructor
      · simp [cbCall, hst, hr]
      · simp [cbCall, hst, hr, onFailure, transitionToHalfOpen, transitionToOpen]
    · constructor
      · simp [cbCall, hst, hr]
      · by_cases h1 : cfg.success_threshold ≤ 1
        · simp [cbCall, hst, hr, onSuccess, transitionToHalfOpen, transitionToClosed, h1]
        · simp [cbCall, hst, hr, onSuccess, transitionToHalfOpen, transitionToClosed, h1]
  · intro h1 s hs hsc n
    have hlt : s.success_count < cfg.success_threshold := by omega
    rw [run_successes_halfOpen cfg n s hs hlt, hsc]
    by_cases h2 : 0 + n < cfg.success_threshold
    · rw [if_pos h2]
      have hstate : ({ s with success_count := 0 + n } : CBreaker).state
          = CBState.halfOpen := hs
      refine ⟨?_, fun hctr => absurd hctr (by omega)⟩
      rw [hstate]
      exact Iff.intro (fun hctr => by cases hctr) (fun hctr => absurd hctr (by omega))
    · rw [if_neg h2]
      refine ⟨Iff.intro (fun _ => by omega) (fun _ => rfl), fun _ => ⟨rfl, rfl⟩⟩

theorem circuit_open_recovery_probe_witness :
    (cbOpenW.state = CBState.opened ∧ cbOpenW.last_failure_time = some 0) ∧
    ((30 - 0 < cfgOrch.recovery_timeout →
       ∀ oc : CallOutcome, cbCall cfgOrch 30 oc cbOpenW = (CallResult.fastFail, cbOpenW))
    ∧ (cfgOrch.recovery_timeout ≤ 30 - 0 →
        ((cbCall cfgOrch 30 CallOutcome.failure cbOpenW).1 = CallResult.err ∧
         (cbCall cfgOrch 30 CallOutcome.failure cbOpenW).2.state = CBState.opened) ∧
        ((cbCall cfgOrch 30 CallOutcome.success cbOpenW).1 = CallResult.ok ∧
         (cbCall cfgOrch 30 CallOutcome.success cbOpenW).2.state =
           (if cfgOrch.success_threshold ≤ 1 then CBState.closed else CBState.halfOpen)))
    ∧ (1 ≤ cfgOrch.success_threshold →
        ∀ s : CBreaker, s.state = CBState.halfOpen → s.success_count = 0 →
        ∀ n : Nat,
          ((runBreaker cfgOrch s (List.replicate n ((0 : ℚ), CallOutcome.success))).state
              = CBState.closed ↔ cfgOrch.success_threshold ≤ n)
          ∧ (cfgOrch.success_threshold ≤ n →
              (runBreaker cfgOrch s
                (List.replicate n ((0 : ℚ), CallOutcome.success))).failure_count = 0 ∧
              (runBreaker cfgOrch s
                (List.replicate n ((0 : ℚ), CallOutcome.success))).success_count = 0))) :=
  ⟨⟨by decide, rfl⟩,
   circuit_open_recovery_probe cfgOrch cbOpenW 0 30 (by decide) rfl⟩

/-! ### Health-check retry (C6) -/

lemma healthLoop_attempts_le (oc : Nat → HealthOutcome) (mr : Nat) :
    ∀ (fuel attempt : Nat) (delay : ℚ) (made : Nat) (ds : List ℚ),
    (healthLoop oc mr fuel attempt delay made ds).attempts ≤ made + fuel := by
  intro fuel
  induction fuel with
  | zero => intro attempt delay made ds; simp [healthLoop]
  | succ f ih =>
    intro attempt delay made ds
    cases h : oc attempt with
    | okTrue => simp only [healthLoop, h]; omega
    | okFalse =>
      have := ih (attempt + 1) delay (made + 1) ds
      simp only [healthLoop, h]
      omega
    | connErr =>
      simp only [healthLoop, h]
      split
      · have := ih (attempt + 1) (delay * (3 / 2)) (made + 1) (ds ++ [delay])
        omega
      · have := ih (attempt + 1) delay (made + 1) ds
        omega
    | otherErr => simp only [healthLoop, h]; omega

lemma healthLoop_delays_geometric (oc : Nat → HealthOutcome) (mr : Nat) (d0 : ℚ) :
    ∀ (fuel attempt made : Nat) (ds : List ℚ),
    (∀ j : Nat, j < ds.length → ds.getD j 0 = d0 * (3 / 2 : ℚ) ^ j) →
    ∀ i : Nat,
      i < (healthLoop oc mr fuel attempt (d0 * (3 / 2 : ℚ) ^ ds.length) made ds).delays.length →
      (healthLoop oc mr fuel attempt (d0 * (3 / 2 : ℚ) ^ ds.length) made ds).delays.getD i 0
        = d0 * (3 / 2 : ℚ) ^ i := by
  intro fuel
  induction fuel with
  | zero =>
    intro attempt made ds hds i hi
    simp only [healthLoop] at hi ⊢
    exact hds i hi
  | succ f ih =>
    intro attempt made ds hds i hi
    cases h : oc attempt with
    | okTrue =>
      simp only [healthLoop, h] at hi ⊢
      exact hds i hi
    | okFalse =>
      simp only [healthLoop, h] at hi ⊢
      exact ih (attempt + 1) (made + 1) ds hds i hi
    | connErr =>
      by_cases hmr : attempt < mr
      · simp only [healthLoop, h, if_pos hmr] at hi ⊢
        have hlen : (ds ++ [d0 * (3 / 2 : ℚ) ^ ds.length]).length = ds.length + 1 := by
          simp
        have hds' : ∀ j : Nat, j < (ds ++ [d0 * (3 / 2 : ℚ) ^ ds.length]).length →
            (ds ++ [d0 * (3 / 2 : ℚ) ^ ds.length]).getD j 0 = d0 * (3 / 2 : ℚ) ^ j := by
          intro j hj
          rw [hlen] at hj
          rcases lt_or_le j ds.length with hj2 | hj2
          · rw [List.getD_append _ _ _ _ hj2]
            exact hds j hj2
          · have hj3 : j = ds.length := by omega
            subst hj3
            rw [List.getD_append_right _ _ _ _ hj2]
            simp
        have harith : d0 * (3 / 2 : ℚ) ^ ds.length * (3 / 2)
            = d0 * (3 / 2 : ℚ) ^ (ds ++ [d0 * (3 / 2 : ℚ) ^ ds.length]).length := by
          rw [hlen, pow_succ]
          ring
        rw [harith] at hi ⊢
        exact ih (attempt + 1) (made + 1) _ hds' i hi
      · simp only [healthLoop, h, if_neg hmr] at hi ⊢
        exact ih (attempt + 1) (made + 1) ds hds i hi
    | otherErr =>
      simp only [healthLoop, h] at hi ⊢
      exact hds i hi

/-- C6 counterexample: when every attempt raises a connection error, the
health check is attempted 4 times (the loop runs `range(max_retries + 1)`
with `max_retries = 3`), not at most 3 as the claim states. -/
theorem health_check_three_attempts_cex :
    (healthRetry (fun _ => HealthOutcome.connErr) 3 2).attempts = 4 ∧
    ¬ (healthRetry (fun _ => HealthOutcome.connErr) 3 2).attempts ≤ 3 := by
  have h : (healthRetry (fun _ => HealthOutcome.connErr) 3 2).attempts = 4 := rfl
  exact ⟨h, by rw [h]; omega⟩

/-- C6 (amended): the health check is attempted at most 4 times (one initial
attempt plus up to 3 retries); the back-off delays slept between
connection-error attempts start at 2 s and grow by the factor 1.5 (the i-th
recorded delay is `2 * 1.5 ^ i`); and a failed health check does not stop the
pipeline: with a successful count of `n > 0` documents the result still
reports the count and the extraction-fed sitemap files, the failure only
being recorded in the error list. -/
theorem health_check_retry_policy (env : CoreEnv) (cfg : CoreCfg) (m : Nat)
    (compress : Bool) (baseUrl : String) (fuel n : Nat)
    (hc : env.countResult = Except.ok n) :
    (∀ oc : Nat → HealthOutcome, (healthRetry oc 3 2).attempts ≤ 4)
    ∧ (∀ oc : Nat → HealthOutcome, ∀ i : Nat,
        i < (healthRetry oc 3 2).delays.length →
        (healthRetry oc 3 2).delays.getD i 0 = 2 * (3 / 2 : ℚ) ^ i)
    ∧ ((healthRetry env.healthOutcomes 3 2).result = false → n ≠ 0 →
        processCoreM env cfg m compress baseUrl fuel =
          ⟨cfg.name, n, n,
           (generateSitemaps m compress baseUrl cfg.name
             (extractLoop env cfg fuel initLoop).1.entries).map genFileName,
           ["Core health check failed after retries"]⟩) := by
  refine ⟨?_, ?_, ?_⟩
  · intro oc
    exact healthLoop_attempts_le oc 3 4 0 2 0 []
  · intro oc i hi
    have h0 : (2 : ℚ) = 2 * (3 / 2 : ℚ) ^ ([] : List ℚ).length := by norm_num
    have := healthLoop_delays_geometric oc 3 2 4 0 0 [] (by intro j hj; simp at hj) i
    rw [← h0] at this
    exact this hi
  · intro hfalse hn
    simp [processCoreM, hc, hfalse, hn]

/-- A core whose health check always raises but which counts and serves two
documents normally. -/
def envC6 : CoreEnv :=
  { healthOutcomes := fun _ => HealthOutcome.connErr,
    countResult := Except.ok 2,
    fetch := fun o l => FetchOutcome.ok (([⟨"a", none⟩, ⟨"b", none⟩] :
      List SolrDocument).drop o |>.take l),
    buildUrl := fun i => some i }

theorem health_check_retry_policy_witness :
    (envC6.countResult = Except.ok 2) ∧
    ((∀ oc : Nat → HealthOutcome, (healthRetry oc 3 2).attempts ≤ 4)
    ∧ (∀ oc : Nat → HealthOutcome, ∀ i : Nat,
        i < (healthRetry oc 3 2).delays.length →
        (healthRetry oc 3 2).delays.getD i 0 = 2 * (3 / 2 : ℚ) ^ i)
    ∧ ((healthRetry envC6.healthOutcomes 3 2).result = false → 2 ≠ 0 →
        processCoreM envC6 ⟨"c6", "weekly", 1000⟩ 50000 false "" 5 =
          ⟨(⟨"c6", "weekly", 1000⟩ : CoreCfg).name, 2, 2,
           (generateSitemaps 50000 false "" (⟨"c6", "weekly", 1000⟩ : CoreCfg).name
             (extractLoop envC6 ⟨"c6", "weekly", 1000⟩ 5 initLoop).1.entries).map genFileName,
           ["Core health check failed after retries"]⟩)) :=
  ⟨rfl, health_check_retry_policy envC6 ⟨"c6", "weekly", 1000⟩ 50000 false "" 5 2 rfl⟩

/-! ### Extraction error policy and pagination (C4, C5) -/

/-- C4: when a batch fetch raises a connection error whose message is
timeout-flavoured and the offset is within the first 3 batch widths, the loop
issues exactly one immediate retry at the same offset with
`max(100, batch_size // 2)` rows, advancing by the retry's length on success
and by one full batch width when the retry fails; in every other
connection-error case it issues no retry and advances the offset by one full
batch width; in all cases the error is recorded and the loop continues. -/
theorem extraction_conn_error_policy (env : CoreEnv) (cfg : CoreCfg)
    (s : LoopState) (tmo : Bool)
    (hf : env.fetch s.offset cfg.batch_size = FetchOutcome.connErr tmo) :
    ((tmo = true ∧ s.offset < 3 * cfg.batch_size) →
       (∀ docs2 : List SolrDocument,
          env.fetch s.offset (max 100 (cfg.batch_size / 2)) = FetchOutcome.ok docs2 →
          ∃ s2 : LoopState, extractStep env cfg s = StepRes.cont s2 ∧
            s2.reqs = s.reqs ++ [(s.offset, cfg.batch_size),
                                 (s.offset, max 100 (cfg.batch_size / 2))] ∧
            s2.offset = s.offset + docs2.length ∧
            s2.errors = s.errors + 1) ∧
       (∀ tmo2 : Bool,
          env.fetch s.offset (max 100 (cfg.batch_size / 2)) = FetchOutcome.connErr tmo2 →
          ∃ s2 : LoopState, extractStep env cfg s = StepRes.cont s2 ∧
            s2.reqs = s.reqs ++ [(s.offset, cfg.batch_size),
                                 (s.offset, max 100 (cfg.batch_size / 2))] ∧
            s2.offset = s.offset + cfg.batch_size ∧
            s2.errors = s.errors + 1) ∧
       (env.fetch s.offset (max 100 (cfg.batch_size / 2)) = FetchOutcome.otherErr →
          ∃ s2 : LoopState, extractStep env cfg s = StepRes.cont s2 ∧
            s2.reqs = s.reqs ++ [(s.offset, cfg.batch_size),
                                 (s.offset, max 100 (cfg.batch_size / 2))] ∧
            s2.offset = s.offset + cfg.batch_size ∧
            s2.errors = s.errors + 1))
    ∧ (¬ (tmo = true ∧ s.offset < 3 * cfg.batch_size) →
        ∃ s2 : LoopState, extractStep env cfg s = StepRes.cont s2 ∧
          s2.reqs = s.reqs ++ [(s.offset, cfg.batch_size)] ∧
          s2.offset = s.offset + cfg.batch_size ∧
          s2.errors = s.errors + 1) := by
  constructor
  · intro hcond
    refine ⟨?_, ?_, ?_⟩
    · intro docs2 h2
      simp [extractStep, hf, hcond.1, hcond.2, h2]
    · intro tmo2 h2
      simp [extractStep, hf, hcond.1, hcond.2, h2]
    · intro h2
      simp [extractStep, hf, hcond.1, hcond.2, h2]
  · intro hcond
    simp [extractStep, hf, hcond]

/-- A source raising a timeout-flavoured connection error at offset 0 for the
full batch size 1000 and succeeding at the reduced size 500 with one
document. -/
def envC4 : CoreEnv :=
  { healthOutcomes := fun _ => HealthOutcome.okTrue,
    countResult := Except.ok 1,
    fetch := fun o l =>
      if o = 0 ∧ l = 1000 then FetchOutcome.connErr true
      else if o = 0 ∧ l = 500 then FetchOutcome.ok [⟨"a", none⟩]
      else FetchOutcome.ok [],
    buildUrl := fun i => some i }

theorem extraction_conn_error_policy_witness :
    (envC4.fetch 0 1000 = FetchOutcome.connErr true) ∧
    (((true = true ∧ (0 : Nat) < 3 * 1000) →
       (∀ docs2 : List SolrDocument,
          envC4.fetch 0 (max 100 (1000 / 2)) = FetchOutcome.ok docs2 →
          ∃ s2 : LoopState,
            extractStep envC4 ⟨"c4", "weekly", 1000⟩ initLoop = StepRes.cont s2 ∧
            s2.reqs = initLoop.reqs ++ [(initLoop.offset, 1000),
                                        (initLoop.offset, max 100 (1000 / 2))] ∧
            s2.offset = initLoop.offset + docs2.length ∧
            s2.errors = initLoop.errors + 1) ∧
       (∀ tmo2 : Bool,
          envC4.fetch 0 (max 100 (1000 / 2)) = FetchOutcome.connErr tmo2 →
          ∃ s2 : LoopState,
            extractStep envC4 ⟨"c4", "weekly", 1000⟩ initLoop = StepRes.cont s2 ∧
            s2.reqs = initLoop.reqs ++ [(initLoop.offset, 1000),
                                        (initLoop.offset, max 100 (1000 / 2))] ∧
            s2.offset = initLoop.offset + 1000 ∧
            s2.errors = initLoop.errors + 1) ∧
       (envC4.fetch 0 (max 100 (1000 / 2)) = FetchOutcome.otherErr →
          ∃ s2 : LoopState,
            extractStep envC4 ⟨"c4", "weekly", 1000⟩ initLoop = StepRes.cont s2 ∧
            s2.reqs = initLoop.reqs ++ [(initLoop.offset, 1000),
                                        (initLoop.offset, max 100 (1000 / 2))] ∧
            s2.offset = initLoop.offset + 1000 ∧
            s2.errors = initLoop.errors + 1))
    ∧ (¬ (true = true ∧ (0 : Nat) < 3 * 1000) →
        ∃ s2 : LoopState,
          extractStep envC4 ⟨"c4", "weekly", 1000⟩ initLoop = StepRes.cont s2 ∧
          s2.reqs = initLoop.reqs ++ [(initLoop.offset, 1000)] ∧
          s2.offset = initLoop.offset + 1000 ∧
          s2.errors = initLoop.errors + 1)) :=
  ⟨rfl, extraction_conn_error_policy envC4 ⟨"c4", "weekly", 1000⟩ initLoop true rfl⟩

lemma storeLoop_count (store : List SolrDocument) (cfg : CoreCfg)
    (hbs : 1 ≤ cfg.batch_size) :
    ∀ (k fuel : Nat) (s : LoopState),
    (store.drop s.offset).length = cfg.batch_size * k → k < fuel →
    (extractLoop (storeEnv store) cfg fuel s).2 = true ∧
    (extractLoop (storeEnv store) cfg fuel s).1.fetchCount = s.fetchCount + k + 1 := by
  intro k
  induction k with
  | zero =>
    intro fuel s hlen hfuel
    obtain ⟨f, rfl⟩ : ∃ f, fuel = f + 1 := ⟨fuel - 1, by omega⟩
    have hdrop : store.drop s.offset = [] := by
      have : (store.drop s.offset).length = 0 := by omega
      exact List.eq_nil_of_length_eq_zero this
    have hstep : extractStep (storeEnv store) cfg s = StepRes.done
        { s with fetchCount := s.fetchCount + 1,
                 reqs := s.reqs ++ [(s.offset, cfg.batch_size)] } := by
      simp [extractStep, storeEnv, hdrop]
    simp [extractLoop, hstep]
  | succ k ih =>
    intro fuel s hlen hfuel
    obtain ⟨f, rfl⟩ : ∃ f, fuel = f + 1 := ⟨fuel - 1, by omega⟩
    have hmul : cfg.batch_size * (k + 1) = cfg.batch_size * k + cfg.batch_size :=
      Nat.mul_succ ..
    have hlend : store.length - s.offset = cfg.batch_size * k + cfg.batch_size := by
      rw [← List.length_drop, hlen, hmul]
    have hdl : ((store.drop s.offset).take cfg.batch_size).length = cfg.batch_size := by
      rw [List.length_take, hlen, hmul]
      exact min_eq_left (by omega)
    have hie : ((store.drop s.offset).take cfg.batch_size).isEmpty = false := by
      cases he : (store.drop s.offset).take cfg.batch_size with
      | nil => rw [he] at hdl; simp at hdl; omega
      | cons a l => rfl
    have hnotlt : ¬ (((store.drop s.offset).take cfg.batch_size).length < cfg.batch_size) := by
      rw [hdl]; omega
    set s2 : LoopState :=
      { s with
        fetchCount := s.fetchCount + 1,
        reqs := s.reqs ++ [(s.offset, cfg.batch_size)],
        entries := s.entries ++
          convertedEntries (storeEnv store) cfg ((store.drop s.offset).take cfg.batch_size),
        processed := s.processed +
          (convertedEntries (storeEnv store) cfg
            ((store.drop s.offset).take cfg.batch_size)).length,
        errors := s.errors +
          convertFailures (storeEnv store) cfg ((store.drop s.offset).take cfg.batch_size),
        offset := s.offset + ((store.drop s.offset).take cfg.batch_size).length }
      with hs2
    have hstep : extractStep (storeEnv store) cfg s = StepRes.cont s2 := by
      rw [hs2]
      simp [extractStep, storeEnv, hie, hnotlt]
      all_goals omega
    rw [show extractLoop (storeEnv store) cfg (f + 1) s =
        match extractStep (storeEnv store) cfg s with
        | StepRes.done s3 => (s3, true)
        | StepRes.cont s3 => extractLoop (storeEnv store) cfg f s3 from rfl, hstep]
    have hoff : s2.offset = s.offset + cfg.batch_size := by rw [hs2, hdl]
    have hlen2 : (store.drop s2.offset).length = cfg.batch_size * k := by
      rw [List.length_drop, hoff]
      omega
    obtain ⟨hfin, hcnt⟩ := ih f s2 hlen2 (by omega)
    refine ⟨hfin, ?_⟩
    rw [hcnt]
    have hfc : s2.fetchCount = s.fetchCount + 1 := by rw [hs2]
    rw [hfc]
    omega

/-- C5: for a healthy source holding exactly `batch_size * k` documents, the
pagination loop performs exactly `k` full-batch fetches plus one final empty
fetch and then terminates; and, in general, any fetch returning an empty or
short batch ends the loop at that iteration. -/
theorem pagination_k_batches (store : List SolrDocument) (cfg : CoreCfg)
    (k fuel : Nat) (hbs : 1 ≤ cfg.batch_size)
    (hlen : store.length = cfg.batch_size * k) (hfuel : k < fuel) :
    ((extractLoop (storeEnv store) cfg fuel initLoop).2 = true ∧
     (extractLoop (storeEnv store) cfg fuel initLoop).1.fetchCount = k + 1)
    ∧ (∀ (env : CoreEnv) (s : LoopState) (docs : List SolrDocument),
        env.fetch s.offset cfg.batch_size = FetchOutcome.ok docs →
        (docs = [] ∨ docs.length < cfg.batch_size) →
        ∃ s2 : LoopState, extractStep env cfg s = StepRes.done s2) := by
  constructor
  · have h := storeLoop_count store cfg hbs k fuel initLoop
      (by simpa [initLoop] using hlen) hfuel
    simpa [initLoop] using h
  · intro env s docs hfet hshort
    by_cases hemp : docs.isEmpty
    · simp [extractStep, hfet, hemp]
    · rcases hshort with rfl | hlt
      · simp at hemp
      · simp [extractStep, hfet, hemp, hlt]

/-- Four documents, so that batch size 2 gives k = 2 full batches. -/
def storeC5 : List SolrDocument :=
  [⟨"a", none⟩, ⟨"b", none⟩, ⟨"c", none⟩, ⟨"d", none⟩]

theorem pagination_k_batches_witness :
    ((1 : Nat) ≤ 2 ∧ storeC5.length = 2 * 2 ∧ (2 : Nat) < 4) ∧
    (((extractLoop (storeEnv storeC5) ⟨"c5", "weekly", 2⟩ 4 initLoop).2 = true ∧
      (extractLoop (storeEnv storeC5) ⟨"c5", "weekly", 2⟩ 4 initLoop).1.fetchCount = 2 + 1)
     ∧ (∀ (env : CoreEnv) (s : LoopState) (docs : List SolrDocument),
         env.fetch s.offset (⟨"c5", "weekly", 2⟩ : CoreCfg).batch_size = FetchOutcome.ok docs →
         (docs = [] ∨ docs.length < (⟨"c5", "weekly", 2⟩ : CoreCfg).batch_size) →
         ∃ s2 : LoopState, extractStep env ⟨"c5", "weekly", 2⟩ s = StepRes.done s2)) :=
  ⟨⟨by decide, by decide, by decide⟩,
   pagination_k_batches storeC5 ⟨"c5", "weekly", 2⟩ 2 4 (by decide) (by decide) (by decide)⟩

/-! ### Sitemap file splitting and indexing (C3) -/

lemma chunkAux_length (m : Nat) (hm : 1 ≤ m) :
    ∀ (es cur : List SitemapEntry) (files : List (List SitemapEntry)),
    cur.length < m →
    (chunkAux m es cur files).length
      = files.length + (cur.length + es.length + m - 1) / m := by
  intro es
  induction es with
  | nil =>
    intro cur files hcur
    by_cases hc : cur.isEmpty
    · have hnil : cur = [] := by
        cases cur with
        | nil => rfl
        | cons a l => simp at hc
      subst hnil
      have hz : (0 + 0 + m - 1) / m = 0 := Nat.div_eq_of_lt (by omega)
      simp only [chunkAux, List.isEmpty_nil, if_true, List.length_nil, hz]
      omega
    · have hc1 : 1 ≤ cur.length := by
        cases cur with
        | nil => simp at hc
        | cons a l => simp
      have h1 : (cur.length + m - 1) / m = 1 := by
        rw [show cur.length + m - 1 = (cur.length - 1) + 1 * m by omega]
        rw [Nat.add_mul_div_right _ _ (by omega : 0 < m)]
        rw [Nat.div_eq_of_lt (by omega)]
      simp [chunkAux, hc, h1]
  | cons e es ih =>
    intro cur files hcur
    by_cases h : m ≤ (cur ++ [e]).length
    · have hlen2 : (cur ++ [e]).length = cur.length + 1 := by simp
      have hlen : (cur ++ [e]).length = m := by omega
      simp only [chunkAux, h, if_true, if_pos h]
      rw [ih [] (files ++ [cur ++ [e]]) (by simp; omega)]
      simp only [List.length_append, List.length_nil, List.length_cons]
      rw [show cur.length + (es.length + 1) + m - 1 = (0 + es.length + m - 1) + m by
        omega]
      rw [Nat.add_div_right _ (by omega)]
      simp
      omega
    · simp only [chunkAux, h, if_false, if_neg h]
      rw [ih (cur ++ [e]) files (by simp at h ⊢; omega)]
      congr 2
      simp
      omega

lemma chunkAux_sizes (m : Nat) :
    ∀ (es cur : List SitemapEntry) (files : List (List SitemapEntry)),
    cur.length < m → (∀ f ∈ files, f.length ≤ m) →
    ∀ f ∈ chunkAux m es cur files, f.length ≤ m := by
  intro es
  induction es with
  | nil =>
    intro cur files hcur hfiles f hf
    by_cases hc : cur.isEmpty
    · simp [chunkAux, hc] at hf
      exact hfiles f hf
    · simp [chunkAux, hc] at hf
      rcases hf with hf | rfl
      · exact hfiles f hf
      · omega
  | cons e es ih =>
    intro cur files hcur hfiles f hf
    by_cases h : m ≤ (cur ++ [e]).length
    · simp only [chunkAux, h, if_pos h] at hf
      refine ih [] (files ++ [cur ++ [e]]) (by simp; omega) ?_ f hf
      intro g hg
      rcases List.mem_append.mp hg with hg | hg
      · exact hfiles g hg
      · simp at hg
        subst hg
        simp
        omega
    · simp only [chunkAux, h, if_neg h] at hf
      exact ih (cur ++ [e]) files (by simp at h ⊢; omega) hfiles f hf

lemma nameChunks_mem (core : String) (m : Nat) (compress : Bool) :
    ∀ (i : Nat) (cs : List (List SitemapEntry)) (f : GenFile),
    f ∈ nameChunks core m compress i cs →
    isDataFile f = true ∧ dataFileEntries f ∈ cs := by
  intro i cs
  induction cs generalizing i with
  | nil => intro f hf; simp [nameChunks] at hf
  | cons c cs ih =>
    intro f hf
    simp only [nameChunks, List.mem_cons] at hf
    rcases hf with rfl | hf
    · exact ⟨rfl, by simp [dataFileEntries]⟩
    · obtain ⟨h1, h2⟩ := ih (i + 1) f hf
      exact ⟨h1, by simp [h2]⟩

lemma nameChunks_length (core : String) (m : Nat) (compress : Bool) :
    ∀ (i : Nat) (cs : List (List SitemapEntry)),
    (nameChunks core m compress i cs).length = cs.length := by
  intro i cs
  induction cs generalizing i with
  | nil => simp [nameChunks]
  | cons c cs ih => simp [nameChunks, ih]

/-- C3: with cap `m ≥ 1`, consuming `n` entries for one source produces
exactly `⌈n / m⌉` data files, each holding at most `m` entries; an index file
is produced if and only if more than one data file was, and when produced it
is the first element of the returned list. -/
theorem sitemap_split_and_index (m : Nat) (compress : Bool) (baseUrl core : String)
    (es : List SitemapEntry) (hm : 1 ≤ m) :
    (((generateSitemaps m compress baseUrl core es).filter isDataFile).length
       = (es.length + m - 1) / m)
    ∧ (∀ f ∈ generateSitemaps m compress baseUrl core es,
        isDataFile f = true → (dataFileEntries f).length ≤ m)
    ∧ ((∃ f ∈ generateSitemaps m compress baseUrl core es, isDataFile f = false) ↔
        1 < ((generateSitemaps m compress baseUrl core es).filter isDataFile).length)
    ∧ (1 < ((generateSitemaps m compress baseUrl core es).filter isDataFile).length →
        ∃ (nm : String) (locs : List String),
          (generateSitemaps m compress baseUrl core es).head? =
            some (GenFile.index nm locs)) := by
  have hall : ∀ f ∈ nameChunks core m compress 1 (chunkEntries m es),
      isDataFile f = true :=
    fun f hf => (nameChunks_mem core m compress 1 _ f hf).1
  have hfilter : (nameChunks core m compress 1 (chunkEntries m es)).filter isDataFile
      = nameChunks core m compress 1 (chunkEntries m es) :=
    List.filter_eq_self.mpr hall
  have hcount : (nameChunks core m compress 1 (chunkEntries m es)).length
      = (es.length + m - 1) / m := by
    rw [nameChunks_length]
    have := chunkAux_length m hm es [] [] (by simp; omega)
    simpa [chunkEntries] using this
  have hsizes : ∀ f ∈ nameChunks core m compress 1 (chunkEntries m es),
      (dataFileEntries f).length ≤ m := by
    intro f hf
    have hmem := (nameChunks_mem core m compress 1 _ f hf).2
    exact chunkAux_sizes m es [] [] (by simp; omega) (by intro g hg; simp at hg) _ hmem
  by_cases h1 : 1 < (nameChunks core m compress 1 (chunkEntries m es)).length
  · have hgen : generateSitemaps m compress baseUrl core es =
        GenFile.index ("sitemap_index_" ++ core ++ ".xml" ++ gzSuffix compress)
          ((nameChunks core m compress 1 (chunkEntries m es)).map
            (fun f => indexLoc baseUrl (genFileName f))) ::
          nameChunks core m compress 1 (chunkEntries m es) := by
      simp [generateSitemaps, h1]
    rw [hgen]
    have hfl : (GenFile.index ("sitemap_index_" ++ core ++ ".xml" ++ gzSuffix compress)
          ((nameChunks core m compress 1 (chunkEntries m es)).map
            (fun f => indexLoc baseUrl (genFileName f))) ::
          nameChunks core m compress 1 (chunkEntries m es)).filter isDataFile
        = nameChunks core m compress 1 (chunkEntries m es) := by
      rw [List.filter_cons_of_neg (by simp [isDataFile])]
      exact hfilter
    refine ⟨by rw [hfl]; exact hcount, ?_, ?_, ?_⟩
    · intro f hf hdata
      rcases List.mem_cons.mp hf with rfl | hf
      · simp [isDataFile] at hdata
      · exact hsizes f hf
    · rw [hfl, hcount] at *
      constructor
      · intro _
        rw [← hcount]
        exact h1
      · intro _
        exact ⟨_, List.mem_cons_self _ _, by simp [isDataFile]⟩
    · intro _
      exact ⟨_, _, rfl⟩
  · have hgen : generateSitemaps m compress baseUrl core es =
        nameChunks core m compress 1 (chunkEntries m es) := by
      simp [generateSitemaps, h1]
    rw [hgen, hfilter]
    refine ⟨hcount, fun f hf _ => hsizes f hf, ?_, fun hctr => absurd hctr h1⟩
    constructor
    · intro ⟨f, hf, hdata⟩
      rw [hall f hf] at hdata
      cases hdata
    · intro hctr
      exact absurd hctr h1

/-- Three entries with cap 2: two data files plus one index, index first. -/
def esC3 : List SitemapEntry :=
  [⟨"https://x/1", none, "weekly"⟩, ⟨"https://x/2", none, "weekly"⟩,
   ⟨"https://x/3", none, "weekly"⟩]

theorem sitemap_split_and_index_witness :
    ((1 : Nat) ≤ 2) ∧
    ((((generateSitemaps 2 false "" "core" esC3).filter isDataFile).length
       = (esC3.length + 2 - 1) / 2)
    ∧ (∀ f ∈ generateSitemaps 2 false "" "core" esC3,
        isDataFile f = true → (dataFileEntries f).length ≤ 2)
    ∧ ((∃ f ∈ generateSitemaps 2 false "" "core" esC3, isDataFile f = false) ↔
        1 < ((generateSitemaps 2 false "" "core" esC3).filter isDataFile).length)
    ∧ (1 < ((generateSitemaps 2 false "" "core" esC3).filter isDataFile).length →
        ∃ (nm : String) (locs : List String),
          (generateSitemaps 2 false "" "core" esC3).head? =
            some (GenFile.index nm locs))) :=
  ⟨by decide, sitemap_split_and_index 2 false "" "core" esC3 (by decide)⟩

/-! ### URL builder validation and encoding (C7) -/

/-- C7 counterexample: the pattern `https://example.com/{id}/{id}` holds two
substitution tokens yet passes eager validation, so construction does not
require exactly one token. -/
theorem url_pattern_two_tokens_cex :
    validatePattern "https://example.com/{id}/{id}" = true ∧
    countTok "{id}".toList "https://example.com/{id}/{id}".toList = 2 ∧
    exceptOk (mkURLBuilder "https://example.com/{id}/{id}" "") = true := by
  decide

/-- C7 (amended): construction succeeds exactly for non-blank patterns with an
http(s) scheme that contain the substitution token at least once (not exactly
once), no unsupported placeholders, and whose test substitution is a valid
URL; validation runs eagerly at construction, so in particular a pattern
lacking the token fails there; and `build_url` percent-encodes the id: the
pattern `https://example.com/doc/{id}` with id "a b" yields
`https://example.com/doc/a%20b`. -/
theorem url_builder_validation (p baseUrl : String) :
    (exceptOk (mkURLBuilder p baseUrl) = true ↔
      (isPyBlank p = false
       ∧ (startsWithStr p "http://" = true ∨ startsWithStr p "https://" = true)
       ∧ containsTok "{id}".toList p.toList = true
       ∧ (∀ ph ∈ findPlaceholders p.toList, ph = "id")
       ∧ isValidUrl (List.asString
           (replaceTok "{id}".toList "test-id-123".toList p.toList)) = true))
    ∧ (containsTok "{id}".toList p.toList = false →
        mkURLBuilder p baseUrl = Except.error "ConfigurationError")
    ∧ buildUrlM ⟨"https://example.com/doc/{id}", baseUrl⟩ "a b"
        = Except.ok "https://example.com/doc/a%20b" := by
  have hok : exceptOk (mkURLBuilder p baseUrl) = validatePattern p := by
    unfold mkURLBuilder
    by_cases h : validatePattern p = true
    · simp [h, exceptOk]
    · simp only [Bool.not_eq_true] at h
      simp [h, exceptOk]
  refine ⟨?_, ?_, ?_⟩
  · rw [hok]
    unfold validatePattern
    split_ifs with h1 h2 h3 h4
    · simp [h1]
    · simp only [Bool.not_eq_true'] at h2
      simp only [Bool.or_eq_false_iff] at h2
      simp [h2.1, h2.2]
    · simp only [Bool.not_eq_true'] at h3
      simp at h3
      simp [h3]
    · simp only [List.any_eq_true, bne_iff_ne] at h4
      obtain ⟨x, hx, hne⟩ := h4
      constructor
      · intro hctr; cases hctr
      · intro hconj
        exact absurd (hconj.2.2.2.1 x hx) hne
    · simp only [Bool.not_eq_true] at h1 h4
      simp only [Bool.not_eq_true] at h2 h3
      simp only [Bool.not_eq_false'] at h2 h3
      rw [Bool.or_eq_true] at h2
      constructor
      · intro hv
        refine ⟨h1, h2, h3, ?_, hv⟩
        intro ph hph
        have h5 := List.any_eq_false.mp h4 ph hph
        simpa using h5
      · intro hconj
        exact hconj.2.2.2.2
  · intro hno
    have hvp : validatePattern p = false := by
      unfold validatePattern
      split
      · rfl
      · split
        · rfl
        · rw [hno]
          simp
    simp [mkURLBuilder, hvp]
  · rfl

/-! ### Sitemap XML shape (C8) -/

/-- An entry whose changefreq string is empty. -/
def entryNoFreq : SitemapEntry := ⟨"https://example.com/doc/1", none, ""⟩

/-- C8 counterexample: for an entry whose changefreq string is empty, the
generated url element contains no changefreq child, refuting "a changefreq
element is always present" (the code guards it with Python truthiness). -/
theorem sitemap_xml_changefreq_cex :
    leavesWithTag ((createSitemapXml [entryNoFreq]).urls.getD 0 ⟨[]⟩) "changefreq" = []
    ∧ (createSitemapXml [entryNoFreq]).urls.length = 1 := by
  decide

lemma getD_map {α β : Type} (f : α → β) :
    ∀ (l : List α) (k : Nat) (d : α), k < l.length →
    (l.map f).getD k (f d) = f (l.getD k d) := by
  intro l
  induction l with
  | nil => intro k d hk; simp at hk
  | cons a l ih =>
    intro k d hk
    cases k with
    | zero => simp
    | succ k =>
      simp only [List.map_cons, List.getD_cons_succ]
      exact ih k d (by simpa using hk)

lemma urlElement_leaves (e : SitemapEntry) :
    leavesWithTag (urlElement e) "loc" = [⟨"loc", e.url⟩]
    ∧ leavesWithTag (urlElement e) "lastmod"
      = (match e.last_modified with
         | some t => [⟨"lastmod", formatLastmod t⟩]
         | none => [])
    ∧ leavesWithTag (urlElement e) "changefreq"
      = (if e.changefreq = "" then [] else [⟨"changefreq", e.changefreq⟩])
    ∧ (urlElement e).children.head? = some ⟨"loc", e.url⟩ := by
  cases hl : e.last_modified with
  | none =>
    by_cases hc : e.changefreq = "" <;>
      simp [urlElement, leavesWithTag, hl, hc]
  | some t =>
    by_cases hc : e.changefreq = "" <;>
      simp [urlElement, leavesWithTag, hl, hc]

/-- C8 (amended): the generated XML is a urlset in the sitemaps.org namespace
whose url children correspond to the entries in arrival order; each url
element starts with a loc child carrying the entry's URL; a lastmod child
formatted `YYYY-MM-DDTHH:MM:SS+00:00` is present exactly when the entry has a
last-modified timestamp; and a changefreq child is present exactly when the
entry's changefreq string is non-empty (it defaults to weekly but is not
emitted for an empty string). -/
theorem sitemap_xml_structure (es : List SitemapEntry) :
    ((createSitemapXml es).xmlns = "http://www.sitemaps.org/schemas/sitemap/0.9")
    ∧ ((createSitemapXml es).urls.length = es.length)
    ∧ (∀ k : Nat, k < es.length →
        (createSitemapXml es).urls.getD k (urlElement ⟨"", none, ""⟩)
          = urlElement (es.getD k ⟨"", none, ""⟩))
    ∧ (∀ e : SitemapEntry,
        leavesWithTag (urlElement e) "loc" = [⟨"loc", e.url⟩]
        ∧ leavesWithTag (urlElement e) "lastmod"
          = (match e.last_modified with
             | some t => [⟨"lastmod", formatLastmod t⟩]
             | none => [])
        ∧ leavesWithTag (urlElement e) "changefreq"
          = (if e.changefreq = "" then [] else [⟨"changefreq", e.changefreq⟩])
        ∧ (urlElement e).children.head? = some ⟨"loc", e.url⟩) := by
  refine ⟨rfl, by simp [createSitemapXml], ?_, urlElement_leaves⟩
  intro k hk
  exact getD_map urlElement es k ⟨"", none, ""⟩ hk

/-! ### Overall aggregation (C9) and per-core totals (C10) -/

/-- C9: aggregation always returns one overall result carrying a per-source
result for every source (exceptions are converted to zeroed failed results,
so even a run in which every source failed yields a result, with rate 0); the
success rate is `processed / attempted * 100` when any documents were
attempted and exactly 0 otherwise. -/
theorem overall_result_aggregation (items : List (String × Except String CoreResultM))
    (t : ℚ) :
    ((processAllCores items t).core_results.length = items.length)
    ∧ (0 < aggTotal items →
        (processAllCores items t).success_rate
          = ((aggProcessed items : ℚ) / (aggTotal items : ℚ)) * 100)
    ∧ (aggTotal items = 0 → (processAllCores items t).success_rate = 0)
    ∧ ((∀ it ∈ items, ∃ msg : String, it.2 = Except.error msg) →
        (processAllCores items t).core_results.length = items.length
        ∧ (processAllCores items t).success_rate = 0) := by
  have htot : sumAttempted (items.map (fun it =>
      match it.2 with
      | Except.error m => failedCoreResult it.1 m
      | Except.ok r => r)) = aggTotal items := by
    unfold sumAttempted
    rw [List.map_map]
    unfold aggTotal
    congr 1
    apply List.map_congr_left
    intro it _
    cases hit : it.2 with
    | error m => simp [hit, failedCoreResult]
    | ok r => simp [hit]
  have hproc : sumProcessed (items.map (fun it =>
      match it.2 with
      | Except.error m => failedCoreResult it.1 m
      | Except.ok r => r)) = aggProcessed items := by
    unfold sumProcessed
    rw [List.map_map]
    unfold aggProcessed
    congr 1
    apply List.map_congr_left
    intro it _
    cases hit : it.2 with
    | error m => simp [hit, failedCoreResult]
    | ok r => simp [hit]
  have hrate : (processAllCores items t).success_rate =
      if 0 < aggTotal items then
        ((aggProcessed items : ℚ) / (aggTotal items : ℚ)) * 100
      else 0 := by
    unfold processAllCores calculateOverallResult
    rw [htot, hproc]
  refine ⟨?_, ?_, ?_, ?_⟩
  · simp [processAllCores, calculateOverallResult]
  · intro hpos
    rw [hrate, if_pos hpos]
  · intro hzero
    rw [hrate, if_neg (by omega)]
  · intro hall
    refine ⟨by simp [processAllCores, calculateOverallResult], ?_⟩
    have hz : aggTotal items = 0 := by
      unfold aggTotal
      apply List.sum_eq_zero
      intro x hx
      obtain ⟨it, hit, hx⟩ := List.mem_map.mp hx
      obtain ⟨msg, hmsg⟩ := hall it hit
      rw [hmsg] at hx
      simpa using hx.symm
    rw [hrate, if_neg (by omega)]

/-- Two per-core outcomes: one success, one raised exception. -/
def itemsC9 : List (String × Except String CoreResultM) :=
  [("good", Except.ok ⟨"good", 4, 3, ["sitemap_good.xml"], []⟩),
   ("bad", Except.error "boom")]

theorem overall_result_aggregation_witness :
    (0 < aggTotal itemsC9) ∧
    ((processAllCores itemsC9 0).success_rate
       = ((aggProcessed itemsC9 : ℚ) / (aggTotal itemsC9 : ℚ)) * 100) :=
  ⟨by decide, ((overall_result_aggregation itemsC9 0).2.1 (by decide))⟩

/-- C10: a source pipeline whose count succeeds with `n > 0` and which runs to
completion reports `processed_docs = total_docs = n` regardless of how many
documents per-document conversion dropped during extraction, and the overall
success rate computed from that single result is exactly 100. -/
theorem core_result_processed_equals_total (env : CoreEnv) (cfg : CoreCfg)
    (m : Nat) (compress : Bool) (baseUrl : String) (fuel n : Nat)
    (hc : env.countResult = Except.ok n) (hn : 0 < n) :
    ((processCoreM env cfg m compress baseUrl fuel).processed_docs = n)
    ∧ ((processCoreM env cfg m compress baseUrl fuel).total_docs = n)
    ∧ ((calculateOverallResult [processCoreM env cfg m compress baseUrl fuel] 0).success_rate
        = 100) := by
  have hne : n ≠ 0 := by omega
  have hr : processCoreM env cfg m compress baseUrl fuel =
      ⟨cfg.name, n, n,
       (generateSitemaps m compress baseUrl cfg.name
         (extractLoop env cfg fuel initLoop).1.entries).map genFileName,
       if (healthRetry env.healthOutcomes 3 2).result then []
       else ["Core health check failed after retries"]⟩ := by
    unfold processCoreM
    rw [hc]
    simp [hne]
  rw [hr]
  refine ⟨rfl, rfl, ?_⟩
  have hcast : (n : ℚ) ≠ 0 := Nat.cast_ne_zero.mpr hne
  simp [calculateOverallResult, sumAttempted, sumProcessed, hn, div_self hcast]

/-- A source counting 2 documents of which one fails URL conversion: the
extraction yields a single entry, yet the core result still reports 2
processed documents and the overall rate is 100. -/
def envC10 : CoreEnv :=
  { healthOutcomes := fun _ => HealthOutcome.okTrue,
    countResult := Except.ok 2,
    fetch := fun o l => FetchOutcome.ok (([⟨"a", none⟩, ⟨"b", none⟩] :
      List SolrDocument).drop o |>.take l),
    buildUrl := fun i => if i = "b" then none else some i }

theorem core_result_processed_equals_total_witness :
    (envC10.countResult = Except.ok 2 ∧ 0 < 2) ∧
    ((extractLoop envC10 ⟨"c10", "weekly", 1000⟩ 5 initLoop).1.entries.length = 1 ∧
     (extractLoop envC10 ⟨"c10", "weekly", 1000⟩ 5 initLoop).1.errors = 1) ∧
    (((processCoreM envC10 ⟨"c10", "weekly", 1000⟩ 50000 false "" 5).processed_docs = 2)
     ∧ ((processCoreM envC10 ⟨"c10", "weekly", 1000⟩ 50000 false "" 5).total_docs = 2)
     ∧ ((calculateOverallResult
          [processCoreM envC10 ⟨"c10", "weekly", 1000⟩ 50000 false "" 5] 0).success_rate
         = 100)) :=
  ⟨⟨rfl, by decide⟩, ⟨by decide, by decide⟩,
   core_result_processed_equals_total envC10 ⟨"c10", "weekly", 1000⟩ 50000 false "" 5 2
     rfl (by decide)⟩

end Sitemapper
